import Mathlib

/-!
Shallow embedding of the build-time plugin script propagation mechanism of
crates/tauri-utils/src/plugin.rs (module build): the publisher
define_global_api_script_path, the aggregator save_global_api_scripts_paths
and the reader read_global_api_scripts.

Modelling choices, each taken from the source:
- Paths are Unix-style strings. PathBuf.is_relative is modelled as not
  starting with "/". PathBuf.join appends with a "/" separator unless the
  argument is absolute, in which case it replaces the receiver, as in Rust.
  Path.strip_prefix is modelled on separator-terminated string prefixes,
  which agrees with the component-wise Rust semantics on the normalized,
  canonical paths the publisher produces.
- The process environment snapshot produced by vars_os is an ordered
  association list of key/value string pairs; iteration order of the loop in
  save_global_api_scripts_paths is the list order.
- The filesystem is an association list from absolute path strings to file
  contents; writing prepends, reading takes the first match. A file exists
  exactly when reading it succeeds. The operating system resolves a relative
  path against the current working directory, modelled by resolve.
- canonicalize (an OS primitive resolving symlinks) composed with
  crate.config.parse.clean_canonical_path (repository code that is not part
  of the sources under verification) is an abstract parameter
  canon : String -> Option String; none models a canonicalization failure.
- serde_json to_string / from_str over Vec PathBuf (an external library the
  specification treats as a given array-of-strings encoder/decoder) are
  abstract parameters encode : List String -> Option String and
  decode : String -> Option (List String); none models an encoding or
  decoding failure.
- A Rust panic via expect / panic is a fatal build-step failure, modelled by
  Except BuildError; the error carries the same diagnostic datum (variable
  name or path) the panic message carries.
-/

/-- An environment snapshot: ordered key/value pairs, as iterated by vars_os. -/
abbrev Env : Type := List (String × String)

/-- The filesystem: association list from path strings to file contents. -/
abbrev FS : Type := List (String × String)

/-- Fatal build-step failures (Rust panics via expect / panic). -/
inductive BuildError : Type where
  | missingEnvVar (name : String)
  | canonicalizationFailure (path : String)
  | pathOutsideBase (path : String)
  | encodingFailure
  | decodingFailure
  | ioFailure (path : String)
deriving DecidableEq, Repr

/-- One cargo directive, key/value, as printed by the publisher. -/
structure Directive : Type where
  key : String
  value : String
deriving DecidableEq, Repr

/-- const GLOBAL_API_SCRIPT_PATH_KEY in plugin.rs. -/
def GLOBAL_API_SCRIPT_PATH_KEY : String := "GLOBAL_API_SCRIPT_PATH"

/-- const GLOBAL_API_SCRIPT_FILE_LIST_PATH in plugin.rs. -/
def GLOBAL_API_SCRIPT_FILE_LIST_PATH : String := "__global-api-script.js"

/-- The distinguished framework-owned environment key DEP_TAURI_ + fixed suffix. -/
def frameworkKey : String := "DEP_TAURI_" ++ GLOBAL_API_SCRIPT_PATH_KEY

/-- std env var lookup over a snapshot: first binding of the name wins. -/
def envVar (env : Env) (name : String) : Option String :=
  (env.find? (fun kv => kv.1 == name)).map (fun kv => kv.2)

/-- str::starts_with, over the character lists of the strings (the core
String.startsWith computes over byte positions and does not reduce by
definitional unfolding; this model is extensionally the same test). -/
def strStartsWith (s pre : String) : Bool := pre.data.isPrefixOf s.data

/-- str::ends_with, over the character lists of the strings. -/
def strEndsWith (s suf : String) : Bool := suf.data.isSuffixOf s.data

/-- Path.is_relative on the Unix string model. -/
def isRelative (p : String) : Bool := !(strStartsWith p "/")

/-- PathBuf.join: an absolute argument replaces the receiver, otherwise append. -/
def pathJoin (a b : String) : String :=
  if isRelative b then a ++ "/" ++ b else b

/-- Path.strip_prefix on the string model: remove the leading base directory,
returning the relative remainder, or none when the path is not below base. -/
def stripBase (p base : String) : Option String :=
  if p == base then some ""
  else if strStartsWith p (base ++ "/") then some (p.drop (base.length + 1))
  else none

/-- OS resolution of a possibly relative path against the working directory. -/
def resolve (cwd p : String) : String :=
  if isRelative p then pathJoin cwd p else p

/-- fs read_to_string: first binding of the path in the filesystem. -/
def fsRead (fs : FS) (p : String) : Option String :=
  (fs.find? (fun kv => kv.1 == p)).map (fun kv => kv.2)

/-- fs write: bind the path to new content, shadowing any previous binding. -/
def fsWrite (fs : FS) (p c : String) : FS := (p, c) :: fs

/-- The publisher resolves a relative input against CARGO_MANIFEST_DIR
(plugin.rs lines 30-34); an absolute input is taken as is. -/
def resolve_input (env : Env) (path : String) : Except BuildError String :=
  if isRelative path then
    match envVar env "CARGO_MANIFEST_DIR" with
    | none => Except.error (BuildError.missingEnvVar "CARGO_MANIFEST_DIR")
    | some dir => Except.ok (pathJoin dir path)
  else Except.ok path

/-- define_global_api_script_path (plugin.rs lines 22-44): read
BAZEL_OUTPUT_BASE, resolve the input path, canonicalize and clean it, strip
the output-base, and emit the single cargo directive carrying the
relative path. Every expect is a fatal error; on success exactly the one
returned directive is printed. -/
def define_global_api_script_path (env : Env) (canon : String → Option String)
    (path : String) : Except BuildError Directive :=
  match envVar env "BAZEL_OUTPUT_BASE" with
  | none => Except.error (BuildError.missingEnvVar "BAZEL_OUTPUT_BASE")
  | some bazel_output_base =>
    match resolve_input env path with
    | Except.error e => Except.error e
    | Except.ok resolved_path =>
      match canon resolved_path with
      | none => Except.error (BuildError.canonicalizationFailure resolved_path)
      | some cleaned_canon_path =>
        match stripBase cleaned_canon_path bazel_output_base with
        | none => Except.error (BuildError.pathOutsideBase cleaned_canon_path)
        | some relative_path =>
          Except.ok ⟨GLOBAL_API_SCRIPT_PATH_KEY, relative_path⟩

/-- Does this environment entry match the general externally-namespaced
pattern of the else-if branch in plugin.rs lines 59-62: not the exact
framework-owned key, starts with DEP_ and ends with the fixed suffix. -/
def isExternalDirective (kv : String × String) : Bool :=
  kv.1 != frameworkKey &&
  strStartsWith kv.1 "DEP_" &&
  strEndsWith kv.1 GLOBAL_API_SCRIPT_PATH_KEY

/-- One step of the override-slot evolution in the loop of
save_global_api_scripts_paths: the exact framework-owned key overwrites the
slot, any other key leaves it unchanged. -/
def tgsStep (t : Option String) (kv : String × String) : Option String :=
  if kv.1 == frameworkKey then some kv.2 else t

/-- The loop of save_global_api_scripts_paths (plugin.rs lines 54-63): walk
the snapshot in order, the exact framework-owned key overwrites
tauri_global_scripts, any other DEP_*GLOBAL_API_SCRIPT_PATH key appends its
value to the working list. -/
def save_loop : Env → Option String → List String → Option String × List String
  | [], tgs, scripts => (tgs, scripts)
  | (key, value) :: rest, tgs, scripts =>
    if key == frameworkKey then
      save_loop rest (some value) scripts
    else if strStartsWith key "DEP_" && strEndsWith key GLOBAL_API_SCRIPT_PATH_KEY then
      save_loop rest tgs (scripts ++ [value])
    else
      save_loop rest tgs scripts

/-- The ordered list save_global_api_scripts_paths serializes: the loop
result, with the override (if any) inserted at position 0
(plugin.rs lines 65-67). -/
def aggregatedScripts (env : Env) (tauri_global_scripts : Option String) :
    List String :=
  match save_loop env tauri_global_scripts [] with
  | (some t, scripts) => t :: scripts
  | (none, scripts) => scripts

/-- save_global_api_scripts_paths (plugin.rs lines 51-74): collect the
directive values from the snapshot, serialize them and write the manifest
file out_dir/GLOBAL_API_SCRIPT_FILE_LIST_PATH. -/
def save_global_api_scripts_paths (env : Env) (out_dir : String)
    (tauri_global_scripts : Option String)
    (encode : List String → Option String) (cwd : String) (fs : FS) :
    Except BuildError FS :=
  let scripts := aggregatedScripts env tauri_global_scripts
  match encode scripts with
  | none => Except.error BuildError.encodingFailure
  | some content =>
    Except.ok
      (fsWrite fs (resolve cwd (pathJoin out_dir GLOBAL_API_SCRIPT_FILE_LIST_PATH))
        content)

/-- The reader loop (plugin.rs lines 88-99): read each manifest entry as
stored, a relative entry resolving against the working directory; the first
unreadable entry aborts fatally with the offending path. -/
def readScriptsLoop (fs : FS) (cwd : String) :
    List String → Except BuildError (List String)
  | [] => Except.ok []
  | p :: rest =>
    match fsRead fs (resolve cwd p) with
    | none => Except.error (BuildError.ioFailure p)
    | some content =>
      match readScriptsLoop fs cwd rest with
      | Except.error e => Except.error e
      | Except.ok contents => Except.ok (content :: contents)

/-- read_global_api_scripts (plugin.rs lines 77-101): none when the manifest
file does not exist, a fatal decodingFailure when it exists but does not
decode to a path list, otherwise the contents of every listed file in
manifest order. -/
def read_global_api_scripts (fs : FS)
    (decode : String → Option (List String)) (cwd out_dir : String) :
    Except BuildError (Option (List String)) :=
  let global_scripts_path := resolve cwd (pathJoin out_dir GLOBAL_API_SCRIPT_FILE_LIST_PATH)
  match fsRead fs global_scripts_path with
  | none => Except.ok none
  | some global_scripts_str =>
    match decode global_scripts_str with
    | none => Except.error BuildError.decodingFailure
    | some global_scripts =>
      match readScriptsLoop fs cwd global_scripts with
      | Except.error e => Except.error e
      | Except.ok contents => Except.ok (some contents)

/-! ### Helper lemmas -/

/-- The loop of the aggregator computes: the override slot holds the value of
the last framework-owned entry (if any), and the working list collects, in
snapshot order, the values of the externally-namespaced entries. -/
theorem save_loop_eq (env : Env) (tgs : Option String) (acc : List String) :
    save_loop env tgs acc =
      (env.foldl tgsStep tgs,
        acc ++ (env.filter isExternalDirective).map Prod.snd) := by
  induction env generalizing tgs acc with
  | nil => simp [save_loop]
  | cons kv rest ih =>
    obtain ⟨key, value⟩ := kv
    by_cases h : (key == frameworkKey) = true
    · have heq : key = frameworkKey := eq_of_beq h
      subst heq
      have h1 : tgsStep tgs (frameworkKey, value) = some value := by simp [tgsStep]
      have h2 : isExternalDirective (frameworkKey, value) = false := by
        simp [isExternalDirective]
      simp [save_loop, List.filter_cons, h1, h2, ih]
    · rw [Bool.not_eq_true] at h
      have h1 : tgsStep tgs (key, value) = tgs := by simp [tgsStep, h]
      by_cases h2 : (strStartsWith key "DEP_" && strEndsWith key GLOBAL_API_SCRIPT_PATH_KEY) = true
      · have hne : key ≠ frameworkKey := ne_of_beq_false h
        have hse := (Bool.and_eq_true _ _).mp h2
        have h3 : isExternalDirective (key, value) = true := by
          simp [isExternalDirective, hne, hse.1, hse.2]
        simp [save_loop, List.filter_cons, h, h2, h1, h3, ih]
      · rw [Bool.not_eq_true] at h2
        have h3 : isExternalDirective (key, value) = false := by
          simp only [isExternalDirective, h2, Bool.and_assoc, Bool.and_false]
        simp [save_loop, List.filter_cons, h, h2, h1, h3, ih]

/-- When no snapshot entry carries the framework-owned key, the override slot
keeps its initial value. -/
theorem tgs_foldl_no_framework (env : Env) (tgs : Option String)
    (h : ∀ kv ∈ env, kv.1 ≠ frameworkKey) :
    env.foldl tgsStep tgs = tgs := by
  induction env generalizing tgs with
  | nil => rfl
  | cons kv rest ih =>
    have h1 : tgsStep tgs kv = tgs := by
      simp [tgsStep, beq_eq_false_iff_ne.mpr (h kv (List.mem_cons_self _ _))]
    rw [List.foldl_cons, h1]
    exact ih tgs (fun x hx => h x (List.mem_cons_of_mem _ hx))

/-- The serialized list: last framework-owned value (or the initial override)
first when present, then the externally-namespaced values in snapshot order. -/
theorem aggregatedScripts_eq (env : Env) (tgs : Option String) :
    aggregatedScripts env tgs =
      (match env.foldl tgsStep tgs with
        | some t => t :: (env.filter isExternalDirective).map Prod.snd
        | none => (env.filter isExternalDirective).map Prod.snd) := by
  unfold aggregatedScripts
  rw [save_loop_eq]
  cases h : env.foldl tgsStep tgs <;> simp

/-- Reading right after writing the same path yields the written content. -/
theorem fsRead_fsWrite_same (fs : FS) (p c : String) :
    fsRead (fsWrite fs p c) p = some c := by
  simp [fsRead, fsWrite, List.find?]

/-- Writing one path does not change reads of a different path. -/
theorem fsRead_fsWrite_other (fs : FS) (p q c : String) (h : q ≠ p) :
    fsRead (fsWrite fs p c) q = fsRead fs q := by
  simp [fsRead, fsWrite, List.find?, beq_eq_false_iff_ne.mpr (Ne.symm h)]

/-- When every manifest entry is readable, the reader loop returns one
content per entry, same order, same length. -/
theorem readScriptsLoop_ok (fs : FS) (cwd : String) (paths : List String)
    (h : ∀ p ∈ paths, (fsRead fs (resolve cwd p)).isSome) :
    ∃ contents, readScriptsLoop fs cwd paths = Except.ok contents ∧
      contents.length = paths.length ∧
      ∀ i (hi : i < paths.length) (hi2 : i < contents.length),
        fsRead fs (resolve cwd (paths.get ⟨i, hi⟩)) = some (contents.get ⟨i, hi2⟩) := by
  induction paths with
  | nil => exact ⟨[], rfl, rfl, fun i hi => absurd hi (Nat.not_lt_zero i)⟩
  | cons p rest ih =>
    have hp := h p (List.mem_cons_self _ _)
    obtain ⟨c, hc⟩ := Option.isSome_iff_exists.mp hp
    obtain ⟨cs, hcs, hlen, hidx⟩ := ih (fun q hq => h q (List.mem_cons_of_mem _ hq))
    refine ⟨c :: cs, ?_, by simp [hlen], ?_⟩
    · simp [readScriptsLoop, hc, hcs]
    · intro i hi hi2
      cases i with
      | zero => simpa using hc
      | succ j =>
        exact hidx j (Nat.lt_of_succ_lt_succ hi) (Nat.lt_of_succ_lt_succ hi2)

/-- When some manifest entry is unreadable, the reader loop fails fatally
with an offending path. -/
theorem readScriptsLoop_err (fs : FS) (cwd : String) (paths : List String)
    (h : ∃ p ∈ paths, fsRead fs (resolve cwd p) = none) :
    ∃ q, q ∈ paths ∧ fsRead fs (resolve cwd q) = none ∧
      readScriptsLoop fs cwd paths = Except.error (BuildError.ioFailure q) := by
  induction paths with
  | nil =>
    obtain ⟨p, hp, _⟩ := h
    exact absurd hp (List.not_mem_nil p)
  | cons p rest ih =>
    cases hread : fsRead fs (resolve cwd p) with
    | none =>
      exact ⟨p, List.mem_cons_self _ _, hread, by simp [readScriptsLoop, hread]⟩
    | some c =>
      have hrest : ∃ q ∈ rest, fsRead fs (resolve cwd q) = none := by
        obtain ⟨q, hq, hqn⟩ := h
        rcases List.mem_cons.mp hq with rfl | hq2
        · rw [hread] at hqn
          exact absurd hqn (by simp)
        · exact ⟨q, hq2, hqn⟩
      obtain ⟨q, hq, hqn, hloop⟩ := ih hrest
      exact ⟨q, List.mem_cons_of_mem _ hq, hqn, by simp [readScriptsLoop, hread, hloop]⟩

/-! ### Claim theorems -/

/-- C5: Absent manifest is not an error: for every output directory in which
the fixed manifest filename does not exist, read_global_api_scripts returns
the no-manifest result none and does not fail. -/
theorem absent_manifest_not_error (fs : FS)
    (decode : String → Option (List String)) (cwd out_dir : String)
    (h : fsRead fs (resolve cwd (pathJoin out_dir GLOBAL_API_SCRIPT_FILE_LIST_PATH)) = none) :
    read_global_api_scripts fs decode cwd out_dir = Except.ok none := by
  simp only [read_global_api_scripts, h]

theorem absent_manifest_not_error_witness :
    fsRead [] (resolve "/cwd" (pathJoin "/out" GLOBAL_API_SCRIPT_FILE_LIST_PATH)) = none ∧
    read_global_api_scripts [] (fun _ => none) "/cwd" "/out" = Except.ok none :=
  ⟨rfl, absent_manifest_not_error [] (fun _ => none) "/cwd" "/out" rfl⟩

/-- C6: Corrupt manifest is an error: when the manifest file exists but its
content does not decode as an array of path strings, read_global_api_scripts
fails fatally with decodingFailure, never returning none or a partial
result. -/
theorem corrupt_manifest_error (fs : FS)
    (decode : String → Option (List String)) (cwd out_dir s : String)
    (hman : fsRead fs (resolve cwd (pathJoin out_dir GLOBAL_API_SCRIPT_FILE_LIST_PATH)) = some s)
    (hdec : decode s = none) :
    read_global_api_scripts fs decode cwd out_dir =
      Except.error BuildError.decodingFailure := by
  simp only [read_global_api_scripts, hman, hdec]

theorem corrupt_manifest_error_witness :
    fsRead [("/out/__global-api-script.js", "not an array")]
      (resolve "/cwd" (pathJoin "/out" GLOBAL_API_SCRIPT_FILE_LIST_PATH)) = some "not an array" ∧
    read_global_api_scripts [("/out/__global-api-script.js", "not an array")]
      (fun _ => none) "/cwd" "/out" = Except.error BuildError.decodingFailure :=
  ⟨by decide, corrupt_manifest_error [("/out/__global-api-script.js", "not an array")]
    (fun _ => none) "/cwd" "/out" "not an array" (by decide) rfl⟩

/-- C7: Idempotence: with a fixed environment snapshot and a fixed override
argument, running save_global_api_scripts_paths twice leaves the manifest
file with identical content after each run. -/
theorem aggregate_idempotent (env : Env) (out_dir cwd m : String)
    (o : Option String) (encode : List String → Option String) (fs : FS)
    (henc : encode (aggregatedScripts env o) = some m) :
    ∃ fs1 fs2,
      save_global_api_scripts_paths env out_dir o encode cwd fs = Except.ok fs1 ∧
      save_global_api_scripts_paths env out_dir o encode cwd fs1 = Except.ok fs2 ∧
      fsRead fs1 (resolve cwd (pathJoin out_dir GLOBAL_API_SCRIPT_FILE_LIST_PATH)) = some m ∧
      fsRead fs2 (resolve cwd (pathJoin out_dir GLOBAL_API_SCRIPT_FILE_LIST_PATH)) = some m := by
  refine
    ⟨fsWrite fs (resolve cwd (pathJoin out_dir GLOBAL_API_SCRIPT_FILE_LIST_PATH)) m,
      fsWrite
        (fsWrite fs (resolve cwd (pathJoin out_dir GLOBAL_API_SCRIPT_FILE_LIST_PATH)) m)
        (resolve cwd (pathJoin out_dir GLOBAL_API_SCRIPT_FILE_LIST_PATH)) m,
      ?_, ?_, fsRead_fsWrite_same _ _ _, fsRead_fsWrite_same _ _ _⟩
  · simp only [save_global_api_scripts_paths, henc]
  · simp only [save_global_api_scripts_paths, henc]

theorem aggregate_idempotent_witness :
    (fun l => some (String.intercalate "," l))
      (aggregatedScripts [("DEP_A_GLOBAL_API_SCRIPT_PATH", "a.js")] none) = some "a.js" ∧
    ∃ fs1 fs2,
      save_global_api_scripts_paths [("DEP_A_GLOBAL_API_SCRIPT_PATH", "a.js")] "/out" none
        (fun l => some (String.intercalate "," l)) "/cwd" [] = Except.ok fs1 ∧
      save_global_api_scripts_paths [("DEP_A_GLOBAL_API_SCRIPT_PATH", "a.js")] "/out" none
        (fun l => some (String.intercalate "," l)) "/cwd" fs1 = Except.ok fs2 ∧
      fsRead fs1 (resolve "/cwd" (pathJoin "/out" GLOBAL_API_SCRIPT_FILE_LIST_PATH)) = some "a.js" ∧
      fsRead fs2 (resolve "/cwd" (pathJoin "/out" GLOBAL_API_SCRIPT_FILE_LIST_PATH)) = some "a.js" :=
  ⟨by decide,
    aggregate_idempotent [("DEP_A_GLOBAL_API_SCRIPT_PATH", "a.js")] "/out" "/cwd" "a.js" none
      (fun l => some (String.intercalate "," l)) [] (by decide)⟩

/-- C2: Override precedence: with a caller-supplied override path O and an
environment snapshot whose externally-namespaced directives carry exactly
the values y and z (and no framework-owned key), the manifest written by
save_global_api_scripts_paths lists O first, and the remaining elements are
exactly y and z as a set, in some unconstrained order. -/
theorem override_precedence (env : Env) (O y z out_dir cwd m : String)
    (encode : List String → Option String) (fs : FS)
    (hfw : ∀ kv ∈ env, kv.1 ≠ frameworkKey)
    (hvals : ((env.filter isExternalDirective).map Prod.snd).Perm [y, z])
    (henc : encode (aggregatedScripts env (some O)) = some m) :
    save_global_api_scripts_paths env out_dir (some O) encode cwd fs =
      Except.ok
        (fsWrite fs (resolve cwd (pathJoin out_dir GLOBAL_API_SCRIPT_FILE_LIST_PATH)) m) ∧
    ∃ rest, aggregatedScripts env (some O) = O :: rest ∧ rest.Perm [y, z] := by
  have hagg : aggregatedScripts env (some O) =
      O :: (env.filter isExternalDirective).map Prod.snd := by
    rw [aggregatedScripts_eq, tgs_foldl_no_framework env _ hfw]
  constructor
  · simp only [save_global_api_scripts_paths, henc]
  · exact ⟨_, hagg, hvals⟩

theorem override_precedence_witness :
    save_global_api_scripts_paths
      [("DEP_A_GLOBAL_API_SCRIPT_PATH", "y.js"), ("DEP_B_GLOBAL_API_SCRIPT_PATH", "z.js")]
      "/out" (some "o.js") (fun l => some (String.intercalate "," l)) "/cwd" [] =
      Except.ok
        (fsWrite [] (resolve "/cwd" (pathJoin "/out" GLOBAL_API_SCRIPT_FILE_LIST_PATH))
          "o.js,y.js,z.js") ∧
    ∃ rest,
      aggregatedScripts
        [("DEP_A_GLOBAL_API_SCRIPT_PATH", "y.js"), ("DEP_B_GLOBAL_API_SCRIPT_PATH", "z.js")]
        (some "o.js") = "o.js" :: rest ∧ rest.Perm ["y.js", "z.js"] :=
  override_precedence
    [("DEP_A_GLOBAL_API_SCRIPT_PATH", "y.js"), ("DEP_B_GLOBAL_API_SCRIPT_PATH", "z.js")]
    "o.js" "y.js" "z.js" "/out" "/cwd" "o.js,y.js,z.js"
    (fun l => some (String.intercalate "," l)) [] (by decide) (by decide) (by decide)

/-- C3: Framework-owned key precedence: when the snapshot contains the
distinguished key DEP_TAURI_GLOBAL_API_SCRIPT_PATH with value V (and no
later entry with that key), its value replaces any caller-supplied
tauri_global_scripts argument: V is position 0 of the serialized list,
whatever the caller passed, and the framework-owned entry is not also
matched by the general externally-namespaced pattern, so V is not appended
a second time. -/
theorem framework_key_precedence (env1 env2 : Env) (V out_dir cwd m : String)
    (o : Option String) (encode : List String → Option String) (fs : FS)
    (h2 : ∀ kv ∈ env2, kv.1 ≠ frameworkKey)
    (henc : encode (aggregatedScripts (env1 ++ (frameworkKey, V) :: env2) o) = some m) :
    aggregatedScripts (env1 ++ (frameworkKey, V) :: env2) o =
      V :: ((env1 ++ (frameworkKey, V) :: env2).filter isExternalDirective).map Prod.snd ∧
    isExternalDirective (frameworkKey, V) = false ∧
    save_global_api_scripts_paths (env1 ++ (frameworkKey, V) :: env2) out_dir o encode cwd fs =
      Except.ok
        (fsWrite fs (resolve cwd (pathJoin out_dir GLOBAL_API_SCRIPT_FILE_LIST_PATH)) m) := by
  have hfold : (env1 ++ (frameworkKey, V) :: env2).foldl tgsStep o = some V := by
    rw [List.foldl_append, List.foldl_cons]
    have hstep : tgsStep (env1.foldl tgsStep o) (frameworkKey, V) = some V := by
      simp [tgsStep]
    rw [hstep, tgs_foldl_no_framework env2 _ h2]
  refine ⟨?_, by simp [isExternalDirective], ?_⟩
  · rw [aggregatedScripts_eq, hfold]
  · simp only [save_global_api_scripts_paths, henc]

theorem framework_key_precedence_witness :
    aggregatedScripts
      ([("DEP_A_GLOBAL_API_SCRIPT_PATH", "a.js")] ++ (frameworkKey, "v.js") ::
        [("DEP_B_GLOBAL_API_SCRIPT_PATH", "b.js")]) (some "caller.js") =
      "v.js" ::
        ((([("DEP_A_GLOBAL_API_SCRIPT_PATH", "a.js")] ++ (frameworkKey, "v.js") ::
          [("DEP_B_GLOBAL_API_SCRIPT_PATH", "b.js")]).filter isExternalDirective).map
            Prod.snd) ∧
    isExternalDirective (frameworkKey, "v.js") = false ∧
    save_global_api_scripts_paths
      ([("DEP_A_GLOBAL_API_SCRIPT_PATH", "a.js")] ++ (frameworkKey, "v.js") ::
        [("DEP_B_GLOBAL_API_SCRIPT_PATH", "b.js")]) "/out" (some "caller.js")
      (fun l => some (String.intercalate "," l)) "/cwd" [] =
      Except.ok
        (fsWrite [] (resolve "/cwd" (pathJoin "/out" GLOBAL_API_SCRIPT_FILE_LIST_PATH))
          "v.js,a.js,b.js") :=
  framework_key_precedence [("DEP_A_GLOBAL_API_SCRIPT_PATH", "a.js")]
    [("DEP_B_GLOBAL_API_SCRIPT_PATH", "b.js")] "v.js" "/out" "/cwd" "v.js,a.js,b.js"
    (some "caller.js") (fun l => some (String.intercalate "," l)) [] (by decide) (by decide)

/-- C4: Outside-base rejection: when the canonical form of the (resolved)
input path does not lie under the output base, define_global_api_script_path
fails fatally with pathOutsideBase and emits no directive. -/
theorem outside_base_rejection (env : Env) (canon : String → Option String)
    (path B resolved c : String)
    (hB : envVar env "BAZEL_OUTPUT_BASE" = some B)
    (hres : resolve_input env path = Except.ok resolved)
    (hcanon : canon resolved = some c)
    (hstrip : stripBase c B = none) :
    define_global_api_script_path env canon path =
      Except.error (BuildError.pathOutsideBase c) ∧
    ∀ d, define_global_api_script_path env canon path ≠ Except.ok d := by
  have h : define_global_api_script_path env canon path =
      Except.error (BuildError.pathOutsideBase c) := by
    simp only [define_global_api_script_path, hB, hres, hcanon, hstrip]
  refine ⟨h, fun d hd => ?_⟩
  rw [h] at hd
  exact Except.noConfusion hd

theorem outside_base_rejection_witness :
    define_global_api_script_path [("BAZEL_OUTPUT_BASE", "/base")] (fun s => some s)
      "/elsewhere/a.js" = Except.error (BuildError.pathOutsideBase "/elsewhere/a.js") ∧
    ∀ d, define_global_api_script_path [("BAZEL_OUTPUT_BASE", "/base")] (fun s => some s)
      "/elsewhere/a.js" ≠ Except.ok d :=
  outside_base_rejection [("BAZEL_OUTPUT_BASE", "/base")] (fun s => some s)
    "/elsewhere/a.js" "/base" "/elsewhere/a.js" "/elsewhere/a.js"
    (by decide) (by rfl) rfl (by decide)

/-- C9: Reader shape preservation: for a present manifest decoding to a path
list, read_global_api_scripts returns, when every listed file is readable,
some sequence with exactly one content per manifest entry, in manifest
order, with the same length; and when some listed file is unreadable it
fails fatally with an error carrying the offending path. -/
theorem reader_shape_preservation (fs : FS)
    (decode : String → Option (List String)) (cwd out_dir s : String)
    (paths : List String)
    (hman : fsRead fs (resolve cwd (pathJoin out_dir GLOBAL_API_SCRIPT_FILE_LIST_PATH)) = some s)
    (hdec : decode s = some paths) :
    ((∀ p ∈ paths, (fsRead fs (resolve cwd p)).isSome) →
      ∃ contents, read_global_api_scripts fs decode cwd out_dir = Except.ok (some contents) ∧
        contents.length = paths.length ∧
        ∀ i (hi : i < paths.length) (hi2 : i < contents.length),
          fsRead fs (resolve cwd (paths.get ⟨i, hi⟩)) = some (contents.get ⟨i, hi2⟩)) ∧
    ((∃ p ∈ paths, fsRead fs (resolve cwd p) = none) →
      ∃ q, q ∈ paths ∧ fsRead fs (resolve cwd q) = none ∧
        read_global_api_scripts fs decode cwd out_dir =
          Except.error (BuildError.ioFailure q)) := by
  constructor
  · intro hall
    obtain ⟨contents, hloop, hlen, hidx⟩ := readScriptsLoop_ok fs cwd paths hall
    exact ⟨contents, by simp only [read_global_api_scripts, hman, hdec, hloop], hlen, hidx⟩
  · intro hsome
    obtain ⟨q, hq, hqn, hloop⟩ := readScriptsLoop_err fs cwd paths hsome
    exact ⟨q, hq, hqn, by simp only [read_global_api_scripts, hman, hdec, hloop]⟩

theorem reader_shape_preservation_witness :
    fsRead [("/out/__global-api-script.js", "a.js,b.js"), ("/cwd/a.js", "AA"), ("/cwd/b.js", "BB")]
      (resolve "/cwd" (pathJoin "/out" GLOBAL_API_SCRIPT_FILE_LIST_PATH)) = some "a.js,b.js" ∧
    ((∀ p ∈ ["a.js", "b.js"],
        (fsRead
          [("/out/__global-api-script.js", "a.js,b.js"), ("/cwd/a.js", "AA"), ("/cwd/b.js", "BB")]
          (resolve "/cwd" p)).isSome) →
      ∃ contents,
        read_global_api_scripts
          [("/out/__global-api-script.js", "a.js,b.js"), ("/cwd/a.js", "AA"), ("/cwd/b.js", "BB")]
          (fun t => if t == "a.js,b.js" then some ["a.js", "b.js"] else none) "/cwd" "/out" = Except.ok (some contents) ∧
        contents.length = (["a.js", "b.js"] : List String).length ∧
        ∀ i (hi : i < (["a.js", "b.js"] : List String).length) (hi2 : i < contents.length),
          fsRead
            [("/out/__global-api-script.js", "a.js,b.js"), ("/cwd/a.js", "AA"), ("/cwd/b.js", "BB")]
            (resolve "/cwd" ((["a.js", "b.js"] : List String).get ⟨i, hi⟩)) =
            some (contents.get ⟨i, hi2⟩)) ∧
    ((∃ p ∈ ["a.js", "b.js"],
        fsRead
          [("/out/__global-api-script.js", "a.js,b.js"), ("/cwd/a.js", "AA"), ("/cwd/b.js", "BB")]
          (resolve "/cwd" p) = none) →
      ∃ q, q ∈ ["a.js", "b.js"] ∧
        fsRead
          [("/out/__global-api-script.js", "a.js,b.js"), ("/cwd/a.js", "AA"), ("/cwd/b.js", "BB")]
          (resolve "/cwd" q) = none ∧
        read_global_api_scripts
          [("/out/__global-api-script.js", "a.js,b.js"), ("/cwd/a.js", "AA"), ("/cwd/b.js", "BB")]
          (fun t => if t == "a.js,b.js" then some ["a.js", "b.js"] else none) "/cwd" "/out" =
          Except.error (BuildError.ioFailure q)) :=
  ⟨by decide,
    reader_shape_preservation
      [("/out/__global-api-script.js", "a.js,b.js"), ("/cwd/a.js", "AA"), ("/cwd/b.js", "BB")]
      (fun t => if t == "a.js,b.js" then some ["a.js", "b.js"] else none) "/cwd" "/out" "a.js,b.js" ["a.js", "b.js"]
      (by decide) (by decide)⟩

/-- C10: Verbatim path interpretation by the reader: each manifest entry is
opened exactly as stored, a relative entry resolving against the working
directory of the reading process (not against the output directory), and
the call succeeds exactly when every stored path is readable as-is from
that directory. -/
theorem reader_verbatim_paths (fs : FS)
    (decode : String → Option (List String)) (cwd out_dir s : String)
    (paths : List String)
    (hman : fsRead fs (resolve cwd (pathJoin out_dir GLOBAL_API_SCRIPT_FILE_LIST_PATH)) = some s)
    (hdec : decode s = some paths) :
    ((∃ contents, read_global_api_scripts fs decode cwd out_dir = Except.ok (some contents)) ↔
      ∀ p ∈ paths, (fsRead fs (resolve cwd p)).isSome) ∧
    (∀ p, isRelative p = true → resolve cwd p = pathJoin cwd p) := by
  constructor
  · constructor
    · rintro ⟨contents, hok⟩
      by_contra hnot
      push_neg at hnot
      obtain ⟨p, hp, hpn⟩ := hnot
      have hpe : fsRead fs (resolve cwd p) = none :=
        Option.not_isSome_iff_eq_none.mp hpn
      obtain ⟨q, _, _, hloop⟩ := readScriptsLoop_err fs cwd paths ⟨p, hp, hpe⟩
      rw [show read_global_api_scripts fs decode cwd out_dir =
          Except.error (BuildError.ioFailure q) by
        simp only [read_global_api_scripts, hman, hdec, hloop]] at hok
      exact Except.noConfusion hok
    · intro hall
      obtain ⟨contents, hloop, _, _⟩ := readScriptsLoop_ok fs cwd paths hall
      exact ⟨contents, by simp only [read_global_api_scripts, hman, hdec, hloop]⟩
  · intro p hp
    rw [resolve, if_pos hp]

theorem reader_verbatim_paths_witness :
    fsRead [("/out/__global-api-script.js", "rel.js"), ("/cwd/rel.js", "RR")]
      (resolve "/cwd" (pathJoin "/out" GLOBAL_API_SCRIPT_FILE_LIST_PATH)) = some "rel.js" ∧
    ((∃ contents,
        read_global_api_scripts
          [("/out/__global-api-script.js", "rel.js"), ("/cwd/rel.js", "RR")]
          (fun t => some [t]) "/cwd" "/out" = Except.ok (some contents)) ↔
      ∀ p ∈ ["rel.js"],
        (fsRead [("/out/__global-api-script.js", "rel.js"), ("/cwd/rel.js", "RR")]
          (resolve "/cwd" p)).isSome) ∧
    (∀ p, isRelative p = true → resolve "/cwd" p = pathJoin "/cwd" p) :=
  ⟨by decide,
    reader_verbatim_paths [("/out/__global-api-script.js", "rel.js"), ("/cwd/rel.js", "RR")]
      (fun t => some [t]) "/cwd" "/out" "rel.js" ["rel.js"] (by decide) rfl⟩

/-- C1: Round trip: an asset at canonical absolute path P under output base
B is published as the relative path r; aggregating, with no override, an
environment snapshot holding exactly that one published directive writes a
one-element manifest; reading the same output directory (from working
directory B, against which the stored relative path resolves back to P)
yields some one-element sequence whose single element is the full content
of the file at P. -/
theorem round_trip_publish_aggregate_read
    (envPub : Env) (canon : String → Option String)
    (encode : List String → Option String) (decode : String → Option (List String))
    (fs : FS) (B P r out_dir k m content : String)
    (hB : envVar envPub "BAZEL_OUTPUT_BASE" = some B)
    (hPabs : isRelative P = false)
    (hcanon : canon P = some P)
    (hstrip : stripBase P B = some r)
    (hjoin : pathJoin B r = P)
    (hrrel : isRelative r = true)
    (hk1 : strStartsWith k "DEP_" = true)
    (hk2 : strEndsWith k GLOBAL_API_SCRIPT_PATH_KEY = true)
    (hk3 : k ≠ frameworkKey)
    (hne : resolve B (pathJoin out_dir GLOBAL_API_SCRIPT_FILE_LIST_PATH) ≠ P)
    (henc : encode [r] = some m)
    (hdec : decode m = some [r])
    (hfile : fsRead fs P = some content) :
    define_global_api_script_path envPub canon P =
      Except.ok ⟨GLOBAL_API_SCRIPT_PATH_KEY, r⟩ ∧
    ∃ fs1, save_global_api_scripts_paths [(k, r)] out_dir none encode B fs = Except.ok fs1 ∧
      read_global_api_scripts fs1 decode B out_dir = Except.ok (some [content]) := by
  have hagg : aggregatedScripts [(k, r)] none = [r] := by
    simp [aggregatedScripts, save_loop, beq_eq_false_iff_ne.mpr hk3, hk1, hk2]
  constructor
  · simp only [define_global_api_script_path, hB, resolve_input, hPabs, Bool.false_eq_true,
      if_false, hcanon, hstrip]
  · refine ⟨fsWrite fs (resolve B (pathJoin out_dir GLOBAL_API_SCRIPT_FILE_LIST_PATH)) m,
      ?_, ?_⟩
    · simp only [save_global_api_scripts_paths, hagg, henc]
    · have hgp := fsRead_fsWrite_same fs
        (resolve B (pathJoin out_dir GLOBAL_API_SCRIPT_FILE_LIST_PATH)) m
      have hres : resolve B r = P := by rw [resolve, if_pos hrrel, hjoin]
      have hP : fsRead
          (fsWrite fs (resolve B (pathJoin out_dir GLOBAL_API_SCRIPT_FILE_LIST_PATH)) m) P =
          some content := by
        rw [fsRead_fsWrite_other _ _ _ _ (Ne.symm hne), hfile]
      simp only [read_global_api_scripts, hgp, hdec, readScriptsLoop, hres, hP]

theorem round_trip_witness :
    define_global_api_script_path [("BAZEL_OUTPUT_BASE", "/base")] (fun t => some t)
      "/base/a.js" = Except.ok ⟨GLOBAL_API_SCRIPT_PATH_KEY, "a.js"⟩ ∧
    ∃ fs1,
      save_global_api_scripts_paths [("DEP_FOO_GLOBAL_API_SCRIPT_PATH", "a.js")] "/out" none
        (fun l => some (String.intercalate "," l)) "/base"
        [("/base/a.js", "SCRIPT CONTENT")] = Except.ok fs1 ∧
      read_global_api_scripts fs1 (fun t => some [t]) "/base" "/out" =
        Except.ok (some ["SCRIPT CONTENT"]) :=
  round_trip_publish_aggregate_read [("BAZEL_OUTPUT_BASE", "/base")] (fun t => some t)
    (fun l => some (String.intercalate "," l)) (fun t => some [t])
    [("/base/a.js", "SCRIPT CONTENT")] "/base" "/base/a.js" "a.js" "/out"
    "DEP_FOO_GLOBAL_API_SCRIPT_PATH" "a.js" "SCRIPT CONTENT"
    (by decide) (by decide) rfl (by decide) (by decide) (by decide) (by decide) (by decide)
    (by decide) (by decide) rfl rfl (by decide)
